import Mathlib

/-!
Shallow embedding of the changelog-update routine of `duties.py`
(the `_latest`, `_unreleased` and `update_changelog` functions).

Modelling conventions:
* A compiled regular-expression pattern with a named capture group
  `version` is abstracted as a function `search : String → Option String`:
  `search line = some v` models `regex.search(line)` succeeding with the
  `version` group capturing the string `v`, and `none` models no match.
* The Jinja template is abstracted as a function
  `render : List Version → String` standing for
  `template.render(changelog=changelog, inplace=True)`: the only thing the
  routine controls is which version list the template sees.
* File IO is made explicit: the routine receives the list of lines obtained
  from `changelog_file.read().splitlines()` and returns, on success, the
  updated line array together with the exact string written back to the
  file.  A `none` result models the `ValueError` raised by
  `lines.index(marker)` before the file is ever opened for writing, so on
  failure the file content is unchanged.
-/

/-- Model of a `git_changelog` `Version` object, with the fields that
`duties.py` reads or writes: `tag`, `planned_tag`, `url`, `compare_url`. -/
structure Version where
  tag : String
  planned_tag : Option String
  url : String
  compare_url : String
  deriving Repr, DecidableEq

/-- Python `str.replace("HEAD", "0.1.0")` on the character list of a string:
left-to-right, non-overlapping replacement of every occurrence of
`"HEAD"` by `"0.1.0"`. -/
def replaceHEAD : List Char → List Char
  | 'H' :: 'E' :: 'A' :: 'D' :: rest => '0' :: '.' :: '1' :: '.' :: '0' :: replaceHEAD rest
  | c :: rest => c :: replaceHEAD rest
  | [] => []

/-- String version of `replaceHEAD`, i.e.
`compare_url.replace("HEAD", planned_tag)` with `planned_tag = "0.1.0"`. -/
def pyReplaceHEAD (s : String) : String :=
  ⟨replaceHEAD s.data⟩

/-- Lines 61–67 of `duties.py`:
```
if len(changelog.versions_list) == 1:
    last_version = changelog.versions_list[0]
    if last_version.planned_tag is None:
        planned_tag = "0.1.0"
        last_version.tag = planned_tag
        last_version.url += planned_tag
        last_version.compare_url = last_version.compare_url.replace("HEAD", planned_tag)
```
-/
def fixupVersions (versions : List Version) : List Version :=
  match versions with
  | [v] =>
      if v.planned_tag = none then
        [{ v with
            tag := "0.1.0"
            url := v.url ++ "0.1.0"
            compare_url := pyReplaceHEAD v.compare_url }]
      else [v]
  | vs => vs

/-- Lines 21–26 of `duties.py` (`_latest`): scan the lines from the top and
return the `version` capture of the first line the pattern matches;
`none` if no line matches. -/
def latestVersion (lines : List String) (search : String → Option String) :
    Option String :=
  match lines with
  | [] => none
  | line :: rest =>
      match search line with
      | some v => some v
      | none => latestVersion rest search

/-- Lines 29–33 of `duties.py` (`_unreleased`):
```
for index, version in enumerate(versions):
    if version.tag == last_release:
        return versions[:index]
return versions
```
The prefix strictly before the first entry whose tag equals
`last_release`; the whole list when no entry's tag equals it. -/
def unreleasedVersions : List Version → String → List Version
  | [], _ => []
  | v :: rest, last_release =>
      if v.tag = last_release then []
      else v :: unreleasedVersions rest last_release

/-- Lines 72–74 of `duties.py`: the version list handed to
`template.render`.
```
last_released = _latest(lines, re.compile(version_regex))
if last_released:
    changelog.versions_list = _unreleased(changelog.versions_list, last_released)
```
A Python string is truthy exactly when it is non-empty, so filtering
happens only when a version was captured and that capture is non-empty. -/
def versionsToRender (versions : List Version)
    (search : String → Option String) (lines : List String) : List Version :=
  match latestVersion lines search with
  | some last_released =>
      if last_released ≠ "" then unreleasedVersions versions last_released
      else versions
  | none => versions

/-- Python `list.index(x)`: index of the first element equal to `x`,
`none` modelling the `ValueError` when `x` is absent. -/
def pyIndex : List String → String → Option Nat
  | [], _ => none
  | y :: ys, x => if y = x then some 0 else (pyIndex ys x).map (· + 1)

/-- Python `str.rstrip("\n")`: drop every trailing newline character. -/
def pyRstripNewlines (s : String) : String :=
  ⟨(s.data.reverse.dropWhile (fun c => c = '\n')).reverse⟩

/-- Lines 69–79 of `duties.py` (`update_changelog`), after the template
fetch and the `Changelog` construction:
```
if len(changelog.versions_list) == 1: ...          # fixupVersions
with open(inplace_file, "r") as changelog_file:
    lines = changelog_file.read().splitlines()
last_released = _latest(lines, re.compile(version_regex))
if last_released:
    changelog.versions_list = _unreleased(changelog.versions_list, last_released)
rendered = template.render(changelog=changelog, inplace=True)
lines[lines.index(marker)] = rendered
with open(inplace_file, "w") as changelog_file:
    changelog_file.write("\n".join(lines).rstrip("\n") + "\n")
```
Input `lines` is `changelog_file.read().splitlines()`.  On success the
result carries the updated line array and the exact string written back;
`none` models the `ValueError` of `lines.index(marker)`, raised after
rendering but before the file is opened for writing, so the file is left
unchanged. -/
def update_changelog (versions : List Version)
    (search : String → Option String) (render : List Version → String)
    (marker : String) (lines : List String) :
    Option (List String × String) :=
  let versions := fixupVersions versions
  let rendered := render (versionsToRender versions search lines)
  match pyIndex lines marker with
  | none => none
  | some i =>
      let newLines := lines.set i rendered
      some (newLines, pyRstripNewlines (String.intercalate "\n" newLines) ++ "\n")

/-! ### Concrete example inputs

Modelled on the concrete scenario of the spec: a changelog file with a
marker line and one documented version `1.0.0`. -/

/-- The marker literal used by the `changelog` duty. -/
def markerEx : String := "<!-- insertion marker -->"

/-- Example file lines, as produced by `read().splitlines()`. -/
def linesEx : List String :=
  ["# Changelog", "<!-- insertion marker -->", "## [v1.0.0] - 2023-01-01",
    "- initial release"]

/-- Abstraction of `re.compile(r"^## \[v?(?P<version>[^\]]+)").search` on the
example file: the version-header line captures `"1.0.0"`. -/
def searchEx : String → Option String :=
  fun line => if line = "## [v1.0.0] - 2023-01-01" then some "1.0.0" else none

/-- A pattern whose first match captures the empty string. -/
def searchEmptyCapture : String → Option String :=
  fun line => if line = "## [] - 2023-01-01" then some "" else none

/-- Example rendering function: records which version tags the template saw. -/
def renderEx : List Version → String :=
  fun versions => String.intercalate "|" (versions.map Version.tag)

/-- An unreleased (planned) version entry: empty tag, no planned tag,
placeholder `HEAD` in the compare URL. -/
def versionPlanned : Version :=
  { tag := "", planned_tag := none, url := "https://x/releases/tag/",
    compare_url := "https://x/compare/v1.0.0...HEAD" }

/-- A released version entry with tag `1.0.0`. -/
def versionReleased : Version :=
  { tag := "1.0.0", planned_tag := some "1.0.0",
    url := "https://x/releases/tag/1.0.0",
    compare_url := "https://x/compare/v0.9.0...v1.0.0" }

/-- An entry whose tag is the empty string but which is not alone in the
list, used to exhibit the empty-capture corner case. -/
def versionEmptyTag : Version :=
  { tag := "", planned_tag := some "x", url := "u", compare_url := "c" }

/-- The result of running the updater on the example file with the example
version list: the marker slot now holds the fragment rendered from the one
unreleased entry, and the written string ends with one newline. -/
def outEx : List String × String :=
  (["# Changelog", "", "## [v1.0.0] - 2023-01-01", "- initial release"],
    "# Changelog\n\n## [v1.0.0] - 2023-01-01\n- initial release\n")

/-! ### Helper lemmas about `replaceHEAD` -/

theorem replaceHEAD_cons (c : Char) (rest : List Char)
    (h : ∀ r, c = 'H' → rest = 'E' :: 'A' :: 'D' :: r → False) :
    replaceHEAD (c :: rest) = c :: replaceHEAD rest := by
  rw [replaceHEAD.eq_def]
  split
  · rename_i r heq
    rw [List.cons.injEq] at heq
    exact (h r heq.1 heq.2).elim
  · rename_i c2 rest2 hmatch heq
    injection heq with h1 h2
    subst h1
    subst h2
    rfl
  · rename_i heq
    exact (List.cons_ne_nil _ _ heq).elim

theorem replaceHEAD_prefix_D (z : List Char) (h : ['D'] <+: replaceHEAD z) :
    ['D'] <+: z := by
  induction z using replaceHEAD.induct with
  | case1 rest ih =>
      simp only [replaceHEAD, List.cons_prefix_cons] at h
      exact absurd h.1 (by decide)
  | case2 c rest hne ih =>
      rw [replaceHEAD_cons c rest hne, List.cons_prefix_cons] at h
      exact List.cons_prefix_cons.mpr ⟨h.1, List.nil_prefix⟩
  | case3 =>
      simp [replaceHEAD] at h

theorem replaceHEAD_prefix_AD (z : List Char) (h : ['A', 'D'] <+: replaceHEAD z) :
    ['A', 'D'] <+: z := by
  induction z using replaceHEAD.induct with
  | case1 rest ih =>
      simp only [replaceHEAD, List.cons_prefix_cons] at h
      exact absurd h.1 (by decide)
  | case2 c rest hne ih =>
      rw [replaceHEAD_cons c rest hne, List.cons_prefix_cons] at h
      exact List.cons_prefix_cons.mpr ⟨h.1, replaceHEAD_prefix_D rest h.2⟩
  | case3 =>
      simp [replaceHEAD] at h

theorem replaceHEAD_prefix_EAD (z : List Char) (h : ['E', 'A', 'D'] <+: replaceHEAD z) :
    ['E', 'A', 'D'] <+: z := by
  induction z using replaceHEAD.induct with
  | case1 rest ih =>
      simp only [replaceHEAD, List.cons_prefix_cons] at h
      exact absurd h.1 (by decide)
  | case2 c rest hne ih =>
      rw [replaceHEAD_cons c rest hne, List.cons_prefix_cons] at h
      exact List.cons_prefix_cons.mpr ⟨h.1, replaceHEAD_prefix_AD rest h.2⟩
  | case3 =>
      simp [replaceHEAD] at h

/-- After `s.replace("HEAD", "0.1.0")`, the string contains no occurrence
of `"HEAD"`: the replacement text cannot recreate one, nor can one span a
replacement boundary. -/
theorem replaceHEAD_no_occurrence (z : List Char) :
    ¬ (['H', 'E', 'A', 'D'] <:+: replaceHEAD z) := by
  induction z using replaceHEAD.induct with
  | case1 rest ih =>
      intro h
      simp only [replaceHEAD] at h
      simp only [List.infix_cons_iff, List.cons_prefix_cons] at h
      rcases h with ⟨hc, _⟩ | ⟨hc, _⟩ | ⟨hc, _⟩ | ⟨hc, _⟩ | ⟨hc, _⟩ | h
      · exact absurd hc (by decide)
      · exact absurd hc (by decide)
      · exact absurd hc (by decide)
      · exact absurd hc (by decide)
      · exact absurd hc (by decide)
      · exact ih h
  | case2 c rest hne ih =>
      intro h
      rw [replaceHEAD_cons c rest hne, List.infix_cons_iff] at h
      rcases h with h | h
      · rw [List.cons_prefix_cons] at h
        obtain ⟨r, hr⟩ := replaceHEAD_prefix_EAD rest h.2
        exact hne r h.1.symm hr.symm
      · exact ih h
  | case3 =>
      intro h
      simp [replaceHEAD] at h

/-! ### Helper lemmas about `pyIndex` -/

theorem pyIndex_eq_none_of_not_mem (l : List String) (x : String) (h : x ∉ l) :
    pyIndex l x = none := by
  induction l with
  | nil => rfl
  | cons y ys ih =>
      simp only [List.mem_cons, not_or] at h
      simp only [pyIndex]
      rw [if_neg (show ¬ y = x from fun hyx => h.1 hyx.symm), ih h.2]
      rfl

theorem pyIndex_of_mem (l : List String) (x : String) (h : x ∈ l) :
    ∃ i, pyIndex l x = some i := by
  induction l with
  | nil => cases h
  | cons y ys ih =>
      by_cases hyx : y = x
      · exact ⟨0, by simp [pyIndex, hyx]⟩
      · rcases List.mem_cons.mp h with h' | h'
        · exact (hyx h'.symm).elim
        · obtain ⟨i, hi⟩ := ih h'
          exact ⟨i + 1, by simp [pyIndex, hyx, hi]⟩

theorem pyIndex_spec (l : List String) (x : String) (i : Nat)
    (h : pyIndex l x = some i) :
    l[i]? = some x ∧ ∀ j, j < i → l[j]? ≠ some x := by
  induction l generalizing i with
  | nil => cases h
  | cons y ys ih =>
      by_cases hyx : y = x
      · simp only [pyIndex, if_pos hyx, Option.some.injEq] at h
        subst h
        exact ⟨by simp [hyx], fun j hj => absurd hj (Nat.not_lt_zero j)⟩
      · simp only [pyIndex, if_neg hyx, Option.map_eq_some'] at h
        obtain ⟨i', hi', rfl⟩ := h
        obtain ⟨h1, h2⟩ := ih i' hi'
        refine ⟨by simpa using h1, fun j hj => ?_⟩
        cases j with
        | zero =>
            simp only [List.getElem?_cons_zero]
            exact fun hx => hyx (Option.some.inj hx)
        | succ j' =>
            simp only [List.getElem?_cons_succ]
            exact h2 j' (by omega)

/-! ### Helper lemmas about `latestVersion` -/

theorem latestVersion_eq_none (lines : List String)
    (search : String → Option String) (h : ∀ l ∈ lines, search l = none) :
    latestVersion lines search = none := by
  induction lines with
  | nil => rfl
  | cons l rest ih =>
      simp only [latestVersion]
      rw [h l (List.mem_cons_self l rest)]
      exact ih (fun l' hl' => h l' (List.mem_cons_of_mem _ hl'))

theorem latestVersion_first_match (lines : List String)
    (search : String → Option String) (i : Nat) (li v : String)
    (hget : lines[i]? = some li) (hmatch : search li = some v)
    (hbefore : ∀ j, j < i → ∀ lj, lines[j]? = some lj → search lj = none) :
    latestVersion lines search = some v := by
  induction lines generalizing i with
  | nil => simp at hget
  | cons l rest ih =>
      cases i with
      | zero =>
          simp only [List.getElem?_cons_zero, Option.some.injEq] at hget
          subst hget
          simp [latestVersion, hmatch]
      | succ i' =>
          have h0 : search l = none :=
            hbefore 0 (Nat.succ_pos _) l (by simp)
          simp only [latestVersion]
          rw [h0]
          exact ih i' (by simpa using hget)
            (fun j hj lj hlj => hbefore (j + 1) (by omega) lj (by simpa using hlj))

/-! ### Helper lemmas about `unreleasedVersions` -/

theorem unreleasedVersions_eq_take (versions : List Version) (V : String)
    (i : Nat) (hi : (versions.map Version.tag)[i]? = some V)
    (hfirst : ∀ j, j < i → (versions.map Version.tag)[j]? ≠ some V) :
    unreleasedVersions versions V = versions.take i := by
  induction versions generalizing i with
  | nil => simp at hi
  | cons v rest ih =>
      cases i with
      | zero =>
          simp only [List.map_cons, List.getElem?_cons_zero, Option.some.injEq] at hi
          simp [unreleasedVersions, hi]
      | succ i' =>
          have h0 : v.tag ≠ V := by
            have := hfirst 0 (Nat.succ_pos _)
            simpa using this
          simp only [unreleasedVersions, if_neg h0, List.take_succ_cons,
            List.cons.injEq, true_and]
          exact ih i' (by simpa using hi)
            (fun j hj => by
              have := hfirst (j + 1) (by omega)
              simpa using this)

theorem unreleasedVersions_eq_self (versions : List Version) (V : String)
    (h : ∀ v ∈ versions, v.tag ≠ V) :
    unreleasedVersions versions V = versions := by
  induction versions with
  | nil => rfl
  | cons v rest ih =>
      simp only [unreleasedVersions, if_neg (h v (List.mem_cons_self v rest)),
        List.cons.injEq, true_and]
      exact ih (fun v' hv' => h v' (List.mem_cons_of_mem _ hv'))

/-! ### Helper lemmas about `pyRstripNewlines` -/

theorem dropWhile_head?_not (p : Char → Bool) (l : List Char) (a : Char)
    (h : (l.dropWhile p).head? = some a) : p a = false := by
  induction l with
  | nil => cases h
  | cons c cs ih =>
      by_cases hc : p c = true
      · rw [List.dropWhile_cons_of_pos hc] at h
        exact ih h
      · rw [List.dropWhile_cons_of_neg hc] at h
        simp only [List.head?_cons, Option.some.injEq] at h
        subst h
        exact Bool.not_eq_true _ ▸ (by simpa using hc)

theorem pyRstripNewlines_no_trailing (s : String) :
    (pyRstripNewlines s).data.getLast? ≠ some '\n' := by
  intro h
  unfold pyRstripNewlines at h
  rw [List.getLast?_reverse] at h
  have := dropWhile_head?_not _ _ _ h
  simp at this

theorem pyRstripNewlines_eq_self (s : String)
    (h : s.data.getLast? ≠ some '\n') : pyRstripNewlines s = s := by
  unfold pyRstripNewlines
  have hd : s.data.reverse.dropWhile (fun c => c = '\n') = s.data.reverse := by
    cases hrev : s.data.reverse with
    | nil => rfl
    | cons c t =>
        have hc : c ≠ '\n' := by
          intro hc
          apply h
          rw [← List.head?_reverse, hrev, hc]
          rfl
        rw [List.dropWhile_cons_of_neg (by simpa using hc)]
  rw [hd, List.reverse_reverse]

/-! ### Claim theorems -/

/-- C4: the version scan examines lines top-to-bottom and returns the value
captured by the `version` group of the first line that matches, and returns
none when no line matches. -/
theorem latest_first_matching_line_wins (lines : List String)
    (search : String → Option String) :
    (∀ (i : Nat) (li v : String), lines[i]? = some li → search li = some v →
        (∀ (j : Nat), j < i → ∀ lj, lines[j]? = some lj → search lj = none) →
        latestVersion lines search = some v) ∧
    ((∀ l ∈ lines, search l = none) → latestVersion lines search = none) :=
  ⟨fun i li v hget hmatch hbefore =>
      latestVersion_first_match lines search i li v hget hmatch hbefore,
    fun h => latestVersion_eq_none lines search h⟩

/-- C4 witness: on the example file the scan returns the version captured
from the third line, the first matching one. -/
theorem latest_first_matching_line_wins_witness :
    latestVersion linesEx searchEx = some "1.0.0" ∧
    latestVersion ["# Changelog", "- initial release"] searchEx = none := by
  constructor
  · exact (latest_first_matching_line_wins linesEx searchEx).1
      2 "## [v1.0.0] - 2023-01-01" "1.0.0" (by decide) (by decide)
      (fun j hj lj hlj => by
        have hj01 : j = 0 ∨ j = 1 := by omega
        rcases hj01 with rfl | rfl
        · simp only [linesEx, List.getElem?_cons_zero, Option.some.injEq] at hlj
          subst hlj
          decide
        · simp only [linesEx, List.getElem?_cons_succ,
            List.getElem?_cons_zero, Option.some.injEq] at hlj
          subst hlj
          decide)
  · exact (latest_first_matching_line_wins _ searchEx).2 (by decide)

/-- C3: when no line of the file matches the version pattern, no filtering
occurs and the full version list is handed to the template. -/
theorem no_version_line_renders_full_list (versions : List Version)
    (search : String → Option String) (lines : List String)
    (h : ∀ l ∈ lines, search l = none) :
    versionsToRender versions search lines = versions := by
  simp only [versionsToRender, latestVersion_eq_none lines search h]

/-- C3 witness: a file with no version header renders the whole list. -/
theorem no_version_line_renders_full_list_witness :
    versionsToRender [versionPlanned, versionReleased] searchEx
      ["# Changelog", markerEx] = [versionPlanned, versionReleased] :=
  no_version_line_renders_full_list _ searchEx _ (by decide)

/-- C10: when the first matching line captures the empty string, the empty
string is falsy in Python, so no filtering occurs and the full version list
is rendered. -/
theorem empty_capture_no_filtering (versions : List Version)
    (search : String → Option String) (lines : List String)
    (h : latestVersion lines search = some "") :
    versionsToRender versions search lines = versions := by
  simp [versionsToRender, h]

/-- C10 witness: an empty capture on the example line leaves the list of
versions unfiltered, even though an entry with the empty tag exists. -/
theorem empty_capture_no_filtering_witness :
    versionsToRender [versionEmptyTag, versionReleased] searchEmptyCapture
      ["## [] - 2023-01-01"] = [versionEmptyTag, versionReleased] :=
  empty_capture_no_filtering _ searchEmptyCapture _ (by decide)

/-- C6: when no line equals the marker, `lines.index(marker)` raises
`ValueError`; the model returns `none` and no output string is produced, so
the file—only opened for writing after rendering and the index lookup—is
left unchanged. -/
theorem missing_marker_fails_no_write (versions : List Version)
    (search : String → Option String) (render : List Version → String)
    (marker : String) (lines : List String) (h : marker ∉ lines) :
    update_changelog versions search render marker lines = none := by
  simp only [update_changelog, pyIndex_eq_none_of_not_mem lines marker h]

/-- C6 witness: a file without the marker line makes the update fail. -/
theorem missing_marker_fails_no_write_witness :
    update_changelog [versionPlanned, versionReleased] searchEx renderEx markerEx
      ["# Changelog", "## [v1.0.0] - 2023-01-01"] = none :=
  missing_marker_fails_no_write _ searchEx renderEx markerEx _ (by decide)

/-- C2 counterexample: the captured version can be the empty string, which
is falsy in Python, so `if last_released:` skips the filtering even though
an entry with that (empty) tag exists at position 0.  The claim as stated
would require the prefix of length 0, but the full list is rendered. -/
theorem truncation_claim_counterexample :
    latestVersion ["## [] - 2023-01-01"] searchEmptyCapture = some "" ∧
    ([versionEmptyTag].map Version.tag)[0]? = some "" ∧
    versionsToRender [versionEmptyTag] searchEmptyCapture ["## [] - 2023-01-01"]
      ≠ [versionEmptyTag].take 0 := by
  refine ⟨rfl, rfl, ?_⟩
  decide

/-- C2 (amended): for every NON-EMPTY captured version `V`, if the first
entry whose tag equals `V` sits at position `i`, the list passed to
rendering is exactly the prefix of entries at positions `0..i-1`; if no
entry's tag equals `V`, the full list is kept. -/
theorem rendered_list_is_prefix_before_last_released (versions : List Version)
    (search : String → Option String) (lines : List String) (V : String)
    (hV : latestVersion lines search = some V) (hVne : V ≠ "") :
    (∀ (i : Nat), (versions.map Version.tag)[i]? = some V →
        (∀ (j : Nat), j < i → (versions.map Version.tag)[j]? ≠ some V) →
        versionsToRender versions search lines = versions.take i) ∧
    ((∀ v ∈ versions, v.tag ≠ V) →
        versionsToRender versions search lines = versions) := by
  constructor
  · intro i hi hfirst
    simp only [versionsToRender, hV, if_pos hVne]
    exact unreleasedVersions_eq_take versions V i hi hfirst
  · intro h
    simp only [versionsToRender, hV, if_pos hVne]
    exact unreleasedVersions_eq_self versions V h

/-- C2 witness: on the example file, version `1.0.0` is captured; the
released entry sits at position 1, so only the planned entry (prefix of
length 1) reaches the template. -/
theorem rendered_list_is_prefix_before_last_released_witness :
    versionsToRender [versionPlanned, versionReleased] searchEx linesEx =
      [versionPlanned, versionReleased].take 1 :=
  (rendered_list_is_prefix_before_last_released
      [versionPlanned, versionReleased] searchEx linesEx "1.0.0"
      (by decide) (by decide)).1 1 (by decide)
    (fun j hj => by
      have hj0 : j = 0 := by omega
      subst hj0
      decide)

/-- C5 counterexample: the fix-up appends the default tag to the URL rather
than substituting the placeholder, so a URL containing `HEAD` still
contains it afterwards; the claim that the URL no longer contains the
placeholder token fails. -/
theorem planned_fixup_claim_counterexample :
    (Version.planned_tag
      { tag := "", planned_tag := none, url := "https://x/tree/HEAD",
        compare_url := "v1...HEAD" } = none) ∧
    fixupVersions
      [{ tag := "", planned_tag := none, url := "https://x/tree/HEAD",
          compare_url := "v1...HEAD" }] =
      [{ tag := "0.1.0", planned_tag := none, url := "https://x/tree/HEAD0.1.0",
          compare_url := "v1...0.1.0" }] ∧
    ("HEAD".data <:+:
      "https://x/tree/HEAD0.1.0".data) := by
  refine ⟨rfl, by decide, ?_⟩
  decide

/-- C5 (amended): if the version list has exactly one entry and that entry
has no planned tag, the fix-up gives it tag `0.1.0`, its compare-URL no
longer contains the placeholder token `HEAD`, and its URL becomes the
original URL with the tag appended (the URL itself is not purged of the
placeholder). -/
theorem planned_release_fixup (v : Version) (h : v.planned_tag = none) :
    ∃ v', fixupVersions [v] = [v'] ∧ v'.tag = "0.1.0" ∧
      v'.url = v.url ++ "0.1.0" ∧
      ¬ ("HEAD".data <:+: v'.compare_url.data) := by
  refine ⟨{ v with
      tag := "0.1.0"
      url := v.url ++ "0.1.0"
      compare_url := pyReplaceHEAD v.compare_url }, ?_, rfl, rfl, ?_⟩
  · simp [fixupVersions, h]
  · exact replaceHEAD_no_occurrence v.compare_url.data

/-- C5 witness: the planned entry of the example gets tag `0.1.0` and its
compare-URL is purged of `HEAD`. -/
theorem planned_release_fixup_witness :
    ∃ v', fixupVersions [versionPlanned] = [v'] ∧ v'.tag = "0.1.0" ∧
      v'.url = versionPlanned.url ++ "0.1.0" ∧
      ¬ ("HEAD".data <:+: v'.compare_url.data) :=
  planned_release_fixup versionPlanned rfl

/-- C1: for a file containing the marker line, the update replaces exactly
the line equal to the marker (at its first position `i`) with the rendered
fragment, and leaves every other line byte-identical. -/
theorem marker_replaced_other_lines_intact (versions : List Version)
    (search : String → Option String) (render : List Version → String)
    (marker : String) (lines : List String) (hm : marker ∈ lines) :
    ∃ (i : Nat) (out : List String × String),
      update_changelog versions search render marker lines = some out ∧
      lines[i]? = some marker ∧
      out.1[i]? =
        some (render (versionsToRender (fixupVersions versions) search lines)) ∧
      (∀ (j : Nat), j ≠ i → out.1[j]? = lines[j]?) := by
  obtain ⟨i, hidx⟩ := pyIndex_of_mem lines marker hm
  obtain ⟨hget, -⟩ := pyIndex_spec lines marker i hidx
  have hlen : i < lines.length := (List.getElem?_eq_some.mp hget).1
  have hrun : update_changelog versions search render marker lines =
      some (lines.set i
          (render (versionsToRender (fixupVersions versions) search lines)),
        pyRstripNewlines (String.intercalate "\n" (lines.set i
          (render (versionsToRender (fixupVersions versions) search lines)))) ++
          "\n") := by
    simp only [update_changelog, hidx]
  refine ⟨i, _, hrun, hget, ?_, ?_⟩
  · exact List.getElem?_set_self hlen
  · intro j hj
    exact List.getElem?_set_ne (fun hij => hj hij.symm)

/-- C1 witness: on the example file the marker at position 1 is replaced
and lines 0, 2, 3 are untouched. -/
theorem marker_replaced_other_lines_intact_witness :
    ∃ (i : Nat) (out : List String × String),
      update_changelog [versionPlanned, versionReleased] searchEx renderEx
        markerEx linesEx = some out ∧
      linesEx[i]? = some markerEx ∧
      out.1[i]? = some (renderEx (versionsToRender
        (fixupVersions [versionPlanned, versionReleased]) searchEx linesEx)) ∧
      (∀ (j : Nat), j ≠ i → out.1[j]? = linesEx[j]?) :=
  marker_replaced_other_lines_intact _ searchEx renderEx markerEx linesEx
    (by decide)

/-- C8: updating a file containing the marker line keeps the line-array
length unchanged: the marker line is overwritten in place by the single
rendered fragment, no slot is added or removed. -/
theorem line_count_preserved (versions : List Version)
    (search : String → Option String) (render : List Version → String)
    (marker : String) (lines : List String) (hm : marker ∈ lines) :
    ∃ out : List String × String,
      update_changelog versions search render marker lines = some out ∧
      out.1.length = lines.length := by
  obtain ⟨i, hidx⟩ := pyIndex_of_mem lines marker hm
  have hrun : update_changelog versions search render marker lines =
      some (lines.set i
          (render (versionsToRender (fixupVersions versions) search lines)),
        pyRstripNewlines (String.intercalate "\n" (lines.set i
          (render (versionsToRender (fixupVersions versions) search lines)))) ++
          "\n") := by
    simp only [update_changelog, hidx]
  exact ⟨_, hrun, List.length_set lines i _⟩

/-- C8 witness: the example file keeps its four line slots. -/
theorem line_count_preserved_witness :
    ∃ out : List String × String,
      update_changelog [versionPlanned, versionReleased] searchEx renderEx
        markerEx linesEx = some out ∧
      out.1.length = linesEx.length :=
  line_count_preserved _ searchEx renderEx markerEx linesEx (by decide)

/-- C9: when the marker occurs as a line more than once, the update does
not fail: `lines.index(marker)` returns the topmost occurrence, only that
slot is overwritten, and every later occurrence is left unchanged. -/
theorem duplicate_marker_first_occurrence_replaced (versions : List Version)
    (search : String → Option String) (render : List Version → String)
    (marker : String) (lines : List String)
    (hm : 2 ≤ lines.count marker) :
    ∃ (i : Nat) (out : List String × String),
      update_changelog versions search render marker lines = some out ∧
      lines[i]? = some marker ∧
      (∀ (j : Nat), j < i → lines[j]? ≠ some marker) ∧
      out.1 = lines.set i
        (render (versionsToRender (fixupVersions versions) search lines)) ∧
      (∀ (k : Nat), i < k → lines[k]? = some marker → out.1[k]? = some marker) := by
  have hmem : marker ∈ lines := List.count_pos_iff.mp (by omega)
  obtain ⟨i, hidx⟩ := pyIndex_of_mem lines marker hmem
  obtain ⟨hget, hfirst⟩ := pyIndex_spec lines marker i hidx
  have hrun : update_changelog versions search render marker lines =
      some (lines.set i
          (render (versionsToRender (fixupVersions versions) search lines)),
        pyRstripNewlines (String.intercalate "\n" (lines.set i
          (render (versionsToRender (fixupVersions versions) search lines)))) ++
          "\n") := by
    simp only [update_changelog, hidx]
  refine ⟨i, _, hrun, hget, hfirst, rfl, ?_⟩
  intro k hik hk
  rw [List.getElem?_set_ne (by omega : i ≠ k)]
  exact hk

/-- C9 witness: a file with two marker lines updates without failing; the
occurrence at position 3 survives. -/
theorem duplicate_marker_first_occurrence_replaced_witness :
    ∃ (i : Nat) (out : List String × String),
      update_changelog [versionPlanned, versionReleased] searchEx renderEx
        markerEx ["# Changelog", markerEx, "x", markerEx] = some out ∧
      ["# Changelog", markerEx, "x", markerEx][i]? = some markerEx ∧
      (∀ (j : Nat), j < i →
        ["# Changelog", markerEx, "x", markerEx][j]? ≠ some markerEx) ∧
      out.1 = ["# Changelog", markerEx, "x", markerEx].set i
        (renderEx (versionsToRender
          (fixupVersions [versionPlanned, versionReleased]) searchEx
          ["# Changelog", markerEx, "x", markerEx])) ∧
      (∀ (k : Nat), i < k →
        ["# Changelog", markerEx, "x", markerEx][k]? = some markerEx →
        out.1[k]? = some markerEx) :=
  duplicate_marker_first_occurrence_replaced _ searchEx renderEx markerEx
    ["# Changelog", markerEx, "x", markerEx] (by decide)

/-- C7: the written output is the updated line array joined by newline,
normalised to end with exactly one trailing newline: it is the join with
its trailing newlines stripped plus a single newline, it ends in a newline,
the part before that final newline has no trailing newline of its own, and
whenever the join itself has no trailing newline the output is literally
the join followed by one newline. -/
theorem written_output_single_trailing_newline (versions : List Version)
    (search : String → Option String) (render : List Version → String)
    (marker : String) (lines : List String) (out : List String × String)
    (h : update_changelog versions search render marker lines = some out) :
    out.2 = pyRstripNewlines (String.intercalate "\n" out.1) ++ "\n" ∧
    out.2.data.getLast? = some '\n' ∧
    (pyRstripNewlines (String.intercalate "\n" out.1)).data.getLast? ≠
      some '\n' ∧
    ((String.intercalate "\n" out.1).data.getLast? ≠ some '\n' →
      out.2 = String.intercalate "\n" out.1 ++ "\n") := by
  simp only [update_changelog] at h
  rcases hidx : pyIndex lines marker with _ | i
  · rw [hidx] at h
    cases h
  · rw [hidx] at h
    have hout := Option.some.inj h
    subst hout
    refine ⟨rfl, ?_, pyRstripNewlines_no_trailing _, ?_⟩
    · rw [String.data_append]
      have hnl : "\n".data = ['\n'] := rfl
      rw [hnl]
      exact List.getLast?_concat _
    · intro hnt
      rw [pyRstripNewlines_eq_self _ hnt]

/-- C7 witness: the concrete written output of the example run ends with
exactly one newline. -/
theorem written_output_single_trailing_newline_witness :
    outEx.2 = pyRstripNewlines (String.intercalate "\n" outEx.1) ++ "\n" ∧
    outEx.2.data.getLast? = some '\n' ∧
    (pyRstripNewlines (String.intercalate "\n" outEx.1)).data.getLast? ≠
      some '\n' ∧
    ((String.intercalate "\n" outEx.1).data.getLast? ≠ some '\n' →
      outEx.2 = String.intercalate "\n" outEx.1 ++ "\n") :=
  written_output_single_trailing_newline [versionPlanned, versionReleased]
    searchEx renderEx markerEx linesEx outEx (by decide)
